import Mathlib

/-!
Verification of the publish/subscribe dispatch core of this repository:
the `CustomEventEmitter` class (src/unnamed/part_001, lines 461-509) with
operations `on`, `once`, `off`, `emit` over a `Map<eventName, Array<Listener>>`.

Shallow embedding conventions:
* Event identifiers, handler identities and emission arguments are `Nat`.
  JavaScript functions are compared by reference identity; we model each
  function value by a numeric identity.
* The subscription `Map` is an association list `List (Nat × List Nat)`
  (key, ordered listener array).  `Map.get/set/delete` become
  `lookupEvt/setEvt/eraseEvt`.
* A wrapper created by `once` is a fresh function value (allocated from
  `nextId`); its `originalFunction` property is recorded in `origMap`, and
  its body (off-then-call-original) is recorded in `wrapInfo` and executed
  by the interpreter.
* Listener bodies are modelled by a behaviour table `B : Nat → Nat → List Cmd`
  giving the registry operations a handler performs on its n-th invocation;
  this lets listeners re-enter `emit`, subscribe, unsubscribe or throw.
* The interpreter `step` is fuelled for termination; every theorem about a
  complete run is stated with fuel of the form `f + c`, i.e. for all
  sufficiently large fuel.
* Instrumentation: `counts` records how often each function value has been
  invoked, `log` records the sequence of invocations `(handler, argument)`.
-/

namespace EmitterSpec

/-- The subscription registry: `Map<eventName, Array<Listener>>` as an
association list from event id to the ordered list of stored function
identities. -/
abbrev Subs := List (Nat × List Nat)

/-- `Map.get`: value of the first matching key. -/
def lookupEvt : Subs → Nat → Option (List Nat)
  | [], _ => none
  | (k, v) :: m, e => if k = e then some v else lookupEvt m e

/-- `Map.set`: replace the value of an existing key, otherwise append the
new key at the end. -/
def setEvt : Subs → Nat → List Nat → Subs
  | [], e, v => [(e, v)]
  | (k, w) :: m, e, v => if k = e then (k, v) :: m else (k, w) :: setEvt m e v

/-- `Map.delete`: remove the first matching key. -/
def eraseEvt : Subs → Nat → Subs
  | [], _ => []
  | (k, w) :: m, e => if k = e then m else (k, w) :: eraseEvt m e

/-- `Array.prototype.splice(idx, 1)` after `findIndex p`: drop the first
element satisfying `p`, keep the list unchanged when nothing matches. -/
def removeFirst (p : Nat → Bool) : List Nat → List Nat
  | [] => []
  | x :: xs => if p x then xs else x :: removeFirst p xs

/-- The predicate of `off`'s `findIndex`:
`(l) => l === listener || l.originalFunction === listener`. -/
def matchesH (om : Nat → Option Nat) (h l : Nat) : Bool :=
  l == h || om l == some h

/-- The state of one `CustomEventEmitter` instance, plus instrumentation.

`subs` is `this.subscriptions`; `origMap f` is the `originalFunction`
property of function value `f` (set only on wrappers created by `once`);
`wrapInfo f = some (e, orig)` says `f` is a `once`-wrapper for event `e`
around handler `orig`; `nextId` allocates fresh function identities;
`counts`/`log` observe invocations and are never read by the emitter. -/
structure EmitterState where
  subs : Subs
  origMap : Nat → Option Nat
  wrapInfo : Nat → Option (Nat × Nat)
  nextId : Nat
  counts : Nat → Nat
  log : List (Nat × Nat)

/-- A freshly constructed emitter (the constructor): empty registry. -/
def emptyState : EmitterState :=
  { subs := []
    origMap := fun _ => none
    wrapInfo := fun _ => none
    nextId := 0
    counts := fun _ => 0
    log := [] }

/-- Registry effect of `on`: create the array if absent, then push. -/
def onSubs (m : Subs) (e h : Nat) : Subs :=
  setEvt m e (((lookupEvt m e).getD []) ++ [h])

/-- Registry effect of `off`: `findIndex`/`splice`, then drop the key if the
array became empty. -/
def offSubs (om : Nat → Option Nat) (m : Subs) (e h : Nat) : Subs :=
  match lookupEvt m e with
  | none => m
  | some ls =>
    let ls' := removeFirst (matchesH om h) ls
    if ls' = [] then eraseEvt m e else setEvt m e ls'

/-- `on(eventName, listener)`. -/
def onE (s : EmitterState) (e h : Nat) : EmitterState :=
  { s with subs := onSubs s.subs e h }

/-- `off(eventName, listener)`. -/
def off (s : EmitterState) (e h : Nat) : EmitterState :=
  { s with subs := offSubs s.origMap s.subs e h }

/-- `once(eventName, listener)`: allocate the wrapper function value,
record its `originalFunction` back-reference and its body, then register it
through `on`. -/
def once (s : EmitterState) (e h : Nat) : EmitterState :=
  onE
    { s with
      nextId := s.nextId + 1
      origMap := fun x => if x = s.nextId then some h else s.origMap x
      wrapInfo := fun x => if x = s.nextId then some (e, h) else s.wrapInfo x }
    e s.nextId

/-- A registry operation performed by a listener body. -/
inductive Cmd where
  | onC (e h : Nat)
  | onceC (e h : Nat)
  | offC (e h : Nat)
  | emitC (e a : Nat)
  | throwC (v : Nat)
deriving DecidableEq, Repr

/-- Behaviour table: `B h n` is the list of registry operations handler `h`
performs on its `n`-th invocation (counting from 0). -/
abbrev Behavior := Nat → Nat → List Cmd

/-- Result of running a piece of the emitter: normal completion, an
uncaught listener exception carrying the state reached so far (heap effects
persist across a throw), or fuel exhaustion of the interpreter. -/
inductive Res where
  | ok (s : EmitterState)
  | thrown (v : Nat) (s : EmitterState)
  | fuelOut

/-- Work items of the interpreter: run a command list, run one command,
invoke each listener of a snapshot in order, invoke one function value. -/
inductive Task where
  | run (cs : List Cmd)
  | one (c : Cmd)
  | seqL (ls : List Nat) (a : Nat)
  | inv (h a : Nat)

/-- Instrumentation for one function invocation: bump its count and append
it to the log. Never touches `subs`, `origMap`, `wrapInfo` or `nextId`. -/
def bump1 (s : EmitterState) (h a : Nat) : EmitterState :=
  { s with
    counts := fun x => if x = h then s.counts x + 1 else s.counts x
    log := s.log ++ [(h, a)] }

/-- The fuelled interpreter.  `.inv` of a wrapper runs the wrapper body
`this.off(eventName, wrapperFunction); listener.call(this, ...args)`;
`.inv` of a plain function runs its behaviour commands.  `.seqL` is the
`snapshot.forEach((l) => l.call(this, ...args))` loop: the list iterated is
the snapshot taken when the task was created, never re-read from the
registry.  `.one (.emitC e a)` is a listener calling `emit` (return value
discarded). -/
def step (B : Behavior) : Nat → EmitterState → Task → Res
  | _, s, .run [] => .ok s
  | _, s, .seqL [] _ => .ok s
  | 0, _, _ => .fuelOut
  | f + 1, s, .run (c :: cs) =>
    match step B f s (.one c) with
    | .ok s' => step B f s' (.run cs)
    | r => r
  | f + 1, s, .one (.onC e h) => .ok (onE s e h)
  | f + 1, s, .one (.onceC e h) => .ok (once s e h)
  | f + 1, s, .one (.offC e h) => .ok (off s e h)
  | f + 1, s, .one (.throwC v) => .thrown v s
  | f + 1, s, .one (.emitC e a) =>
    match lookupEvt s.subs e with
    | none => .ok s
    | some ls => step B f s (.seqL ls a)
  | f + 1, s, .seqL (h :: t) a =>
    match step B f s (.inv h a) with
    | .ok s' => step B f s' (.seqL t a)
    | r => r
  | f + 1, s, .inv h a =>
    match s.wrapInfo h with
    | some (e, orig) => step B f (off (bump1 s h a) e h) (.inv orig a)
    | none => step B f (bump1 s h a) (.run (B h (s.counts h)))

/-- Result of `emit`, which also returns the had-listeners boolean. -/
inductive EmitRes where
  | ok (b : Bool) (s : EmitterState)
  | thrown (v : Nat) (s : EmitterState)
  | fuelOut

/-- `emit(eventName, ...args)`: look up the array; absent means return
`false` with no invocation; otherwise iterate a snapshot copy and return
`true`. -/
def emit (B : Behavior) (f : Nat) (s : EmitterState) (e a : Nat) : EmitRes :=
  match lookupEvt s.subs e with
  | none => .ok false s
  | some ls =>
    match step B f s (.seqL ls a) with
    | .ok s' => .ok true s'
    | .thrown v s' => .thrown v s'
    | .fuelOut => .fuelOut

/-- Observation: the invocation count of `h` after a completed `emit`. -/
def countsAfterEmit (B : Behavior) (f : Nat) (s : EmitterState) (e a h : Nat) :
    Option Nat :=
  match emit B f s e a with
  | .ok _ s' => some (s'.counts h)
  | .thrown _ s' => some (s'.counts h)
  | .fuelOut => none

/-- Observation: the invocation log after a completed `emit`. -/
def logAfterEmit (B : Behavior) (f : Nat) (s : EmitterState) (e a : Nat) :
    Option (List (Nat × Nat)) :=
  match emit B f s e a with
  | .ok _ s' => some s'.log
  | .thrown _ s' => some s'.log
  | .fuelOut => none

/-- Observation: the stored listener list of `e'` after a completed `emit`. -/
def lookupAfterEmit (B : Behavior) (f : Nat) (s : EmitterState) (e a e' : Nat) :
    Option (Option (List Nat)) :=
  match emit B f s e a with
  | .ok _ s' => some (lookupEvt s'.subs e')
  | .thrown _ s' => some (lookupEvt s'.subs e')
  | .fuelOut => none

/-- Observation: the boolean returned by a completed `emit`. -/
def boolAfterEmit (B : Behavior) (f : Nat) (s : EmitterState) (e a : Nat) :
    Option Bool :=
  match emit B f s e a with
  | .ok b _ => some b
  | .thrown _ _ => none
  | .fuelOut => none

/-- The behaviour table of inert listeners (plain handlers that perform no
registry operation). -/
def B0 : Behavior := fun _ _ => []

/-- A behaviour table where handler 100 throws the value 7 and every other
handler is inert. -/
def Bt : Behavior := fun h _ => if h = 100 then [Cmd.throwC 7] else []

/-- A behaviour table where handler 100 re-enters `emit` for event 5 on its
first invocation, and every other handler is inert. -/
def B2 : Behavior := fun h n => if h = 100 ∧ n = 0 then [Cmd.emitC 5 9] else []

/-- A behaviour table where handler 102 re-enters `emit` for event 0 on its
first invocation, and every other handler is inert. -/
def B4 : Behavior := fun h n => if h = 102 ∧ n = 0 then [Cmd.emitC 0 3] else []

/-- A behaviour table where handler 101 re-enters `emit` for event 5 on its
first invocation, and every other handler is inert. -/
def B2w : Behavior :=
  fun h n => if h = 101 ∧ n = 0 then [Cmd.emitC 5 9] else []

/-- A behaviour table where handler 100 subscribes handler 102 to event 0
on its first invocation, and every other handler is inert. -/
def BaddX : Behavior :=
  fun h n => if h = 100 ∧ n = 0 then [Cmd.onC 0 102] else []

/-- A behaviour table where handler 41 unsubscribes handler 43 from event 0
whenever invoked, and every other handler is inert. -/
def Bkj : Behavior := fun h _ => if h = 41 then [Cmd.offC 0 43] else []

/-- The keys of the registry map, in order. -/
def keysOf (m : Subs) : List Nat := m.map Prod.fst

/-- Keys of the registry are pairwise distinct (the `Map` representation
invariant). -/
def KeysNodup (m : Subs) : Prop := (keysOf m).Nodup

/-- A handler that performs no registry operation on any invocation. -/
def Inert (B : Behavior) (h : Nat) : Prop := ∀ n, B h n = []

/-- All handlers of a list are inert. -/
def InertAll (B : Behavior) (ls : List Nat) : Prop := ∀ h ∈ ls, Inert B h

/-- All handlers of a list are plain (not `once`-wrappers). -/
def PlainAll (s : EmitterState) (ls : List Nat) : Prop :=
  ∀ h ∈ ls, s.wrapInfo h = none

/-- The instrumentation effect of invoking every listener of a snapshot in
order, when none of them mutates the registry. -/
def bumpList (s : EmitterState) (ls : List Nat) (a : Nat) : EmitterState :=
  ls.foldl (fun t h => bump1 t h a) s

/-- Lift a registry predicate to interpreter results: it must hold in the
final state of a completed run, whether the run finished normally or by an
uncaught listener exception. -/
def ResP (P : Subs → Prop) : Res → Prop
  | .ok s => P s.subs
  | .thrown _ s => P s.subs
  | .fuelOut => True

/-- Same lifting for `emit` results. -/
def EmitResP (P : Subs → Prop) : EmitRes → Prop
  | .ok _ s => P s.subs
  | .thrown _ s => P s.subs
  | .fuelOut => True

/-- The `Map` representation invariant of the registry together with the
no-empty-sequence invariant claimed by the spec. -/
def GoodSubs (m : Subs) : Prop :=
  KeysNodup m ∧ ∀ e ls, lookupEvt m e = some ls → ls ≠ []

/-- The states reachable through the emitter's public API: a freshly
constructed emitter followed by any sequence of `on`, `once`, `off` and
completed `emit` calls (the latter including dispatches aborted by a
listener exception). -/
inductive Reachable (B : Behavior) : EmitterState → Prop
  | empty : Reachable B emptyState
  | onR {s : EmitterState} (e h : Nat) :
      Reachable B s → Reachable B (onE s e h)
  | onceR {s : EmitterState} (e h : Nat) :
      Reachable B s → Reachable B (once s e h)
  | offR {s : EmitterState} (e h : Nat) :
      Reachable B s → Reachable B (off s e h)
  | emitOkR {s s' : EmitterState} {b : Bool} (f e a : Nat) :
      Reachable B s → emit B f s e a = .ok b s' → Reachable B s'
  | emitThrownR {s s' : EmitterState} {v : Nat} (f e a : Nat) :
      Reachable B s → emit B f s e a = .thrown v s' → Reachable B s'

/-- Sanity check: dispatching to two inert listeners returns `true` and
logs both, in order. -/
theorem sanity_emit_two_listeners :
    boolAfterEmit B0 5 (onE (onE emptyState 0 100) 0 101) 0 9 = some true
    ∧ logAfterEmit B0 5 (onE (onE emptyState 0 100) 0 101) 0 9 =
        some [(100, 9), (101, 9)] := by
  decide

/-- Sanity check: dispatching an unknown event returns `false`. -/
theorem sanity_emit_no_listeners :
    boolAfterEmit B0 5 emptyState 3 9 = some false := by
  decide

/-- Sanity check: a `once` listener fires once and its entry is gone. -/
theorem sanity_once_fires_once :
    lookupAfterEmit B0 9 (once (onE emptyState 0 100) 0 101) 0 9 0 =
      some (some [100])
    ∧ countsAfterEmit B0 9 (once (onE emptyState 0 100) 0 101) 0 9 101 =
        some 1 := by
  decide

/-! ### Field lemmas for the registry operations -/

@[simp] theorem onE_subs (s : EmitterState) (e h : Nat) :
    (onE s e h).subs = onSubs s.subs e h := rfl

@[simp] theorem onE_origMap (s : EmitterState) (e h : Nat) :
    (onE s e h).origMap = s.origMap := rfl

@[simp] theorem onE_wrapInfo (s : EmitterState) (e h : Nat) :
    (onE s e h).wrapInfo = s.wrapInfo := rfl

@[simp] theorem onE_counts (s : EmitterState) (e h : Nat) :
    (onE s e h).counts = s.counts := rfl

@[simp] theorem onE_log (s : EmitterState) (e h : Nat) :
    (onE s e h).log = s.log := rfl

@[simp] theorem off_subs (s : EmitterState) (e h : Nat) :
    (off s e h).subs = offSubs s.origMap s.subs e h := rfl

@[simp] theorem off_origMap (s : EmitterState) (e h : Nat) :
    (off s e h).origMap = s.origMap := rfl

@[simp] theorem off_wrapInfo (s : EmitterState) (e h : Nat) :
    (off s e h).wrapInfo = s.wrapInfo := rfl

@[simp] theorem off_counts (s : EmitterState) (e h : Nat) :
    (off s e h).counts = s.counts := rfl

@[simp] theorem off_log (s : EmitterState) (e h : Nat) :
    (off s e h).log = s.log := rfl

@[simp] theorem off_nextId (s : EmitterState) (e h : Nat) :
    (off s e h).nextId = s.nextId := rfl

@[simp] theorem once_subs (s : EmitterState) (e h : Nat) :
    (once s e h).subs = onSubs s.subs e s.nextId := rfl

@[simp] theorem once_origMap (s : EmitterState) (e h : Nat) :
    (once s e h).origMap =
      fun x => if x = s.nextId then some h else s.origMap x := rfl

@[simp] theorem once_wrapInfo (s : EmitterState) (e h : Nat) :
    (once s e h).wrapInfo =
      fun x => if x = s.nextId then some (e, h) else s.wrapInfo x := rfl

@[simp] theorem once_counts (s : EmitterState) (e h : Nat) :
    (once s e h).counts = s.counts := rfl

@[simp] theorem once_log (s : EmitterState) (e h : Nat) :
    (once s e h).log = s.log := rfl

@[simp] theorem bump1_subs (s : EmitterState) (h a : Nat) :
    (bump1 s h a).subs = s.subs := rfl

@[simp] theorem bump1_origMap (s : EmitterState) (h a : Nat) :
    (bump1 s h a).origMap = s.origMap := rfl

@[simp] theorem bump1_wrapInfo (s : EmitterState) (h a : Nat) :
    (bump1 s h a).wrapInfo = s.wrapInfo := rfl

@[simp] theorem bump1_log (s : EmitterState) (h a : Nat) :
    (bump1 s h a).log = s.log ++ [(h, a)] := rfl

@[simp] theorem bump1_counts_self (s : EmitterState) (h a : Nat) :
    (bump1 s h a).counts h = s.counts h + 1 := by
  simp [bump1]

theorem bump1_counts_ne (s : EmitterState) (h a x : Nat) (hx : x ≠ h) :
    (bump1 s h a).counts x = s.counts x := by
  simp [bump1, hx]

/-! ### Association list lemmas -/

theorem lookupEvt_setEvt (m : Subs) (e : Nat) (v : List Nat) (e' : Nat) :
    lookupEvt (setEvt m e v) e' = if e' = e then some v else lookupEvt m e' := by
  induction m with
  | nil =>
    by_cases hx : e' = e
    · subst hx; simp [setEvt, lookupEvt]
    · simp [setEvt, lookupEvt, hx, Ne.symm hx]
  | cons kv m ih =>
    obtain ⟨k, w⟩ := kv
    by_cases hk : k = e
    · subst hk
      by_cases hx : e' = k
      · subst hx; simp [setEvt, lookupEvt]
      · simp [setEvt, lookupEvt, hx, Ne.symm hx]
    · by_cases hx : e' = k
      · subst hx
        simp [setEvt, lookupEvt, hk, Ne.symm hk]
      · simp [setEvt, lookupEvt, hk, hx, Ne.symm hx, ih]

theorem lookupEvt_eraseEvt_ne (m : Subs) (e e' : Nat) (hx : e' ≠ e) :
    lookupEvt (eraseEvt m e) e' = lookupEvt m e' := by
  induction m with
  | nil => simp [eraseEvt]
  | cons kv m ih =>
    obtain ⟨k, w⟩ := kv
    by_cases hk : k = e
    · subst hk
      simp [eraseEvt, lookupEvt, Ne.symm hx]
    · simp [eraseEvt, lookupEvt, hk, ih]



theorem lookupEvt_eq_none_of_not_mem (m : Subs) (e : Nat)
    (he : e ∉ keysOf m) : lookupEvt m e = none := by
  induction m with
  | nil => rfl
  | cons kv m ih =>
    obtain ⟨k, w⟩ := kv
    simp [keysOf] at he
    simp [lookupEvt, Ne.symm he.1, ih (by simp [keysOf, he.2])]

theorem lookupEvt_eraseEvt_self (m : Subs) (e : Nat) (hm : KeysNodup m) :
    lookupEvt (eraseEvt m e) e = none := by
  induction m with
  | nil => rfl
  | cons kv m ih =>
    obtain ⟨k, w⟩ := kv
    simp [KeysNodup, keysOf] at hm
    by_cases hk : k = e
    · subst hk
      simpa [eraseEvt] using
        lookupEvt_eq_none_of_not_mem m k (by simp [keysOf, hm.1])
    · simp [eraseEvt, lookupEvt, hk, ih hm.2]

theorem setEvt_self (m : Subs) (e : Nat) (v : List Nat)
    (hv : lookupEvt m e = some v) : setEvt m e v = m := by
  induction m with
  | nil => simp [lookupEvt] at hv
  | cons kv m ih =>
    obtain ⟨k, w⟩ := kv
    by_cases hk : k = e
    · subst hk
      simp [lookupEvt] at hv
      simp [setEvt, hv]
    · simp [lookupEvt, hk] at hv
      simp [setEvt, hk, ih hv]

@[simp] theorem keysOf_nil : keysOf [] = [] := rfl

@[simp] theorem keysOf_cons (k : Nat) (w : List Nat) (m : Subs) :
    keysOf ((k, w) :: m) = k :: keysOf m := rfl

theorem keysOf_setEvt_mem (m : Subs) (e : Nat) (v : List Nat)
    (he : e ∈ keysOf m) : keysOf (setEvt m e v) = keysOf m := by
  induction m with
  | nil => simp at he
  | cons kv m ih =>
    obtain ⟨k, w⟩ := kv
    by_cases hk : k = e
    · subst hk; simp [setEvt]
    · rw [keysOf_cons, List.mem_cons] at he
      rcases he with he | he
      · exact absurd he.symm hk
      · simp only [setEvt, if_neg hk, keysOf_cons, ih he]

theorem keysOf_setEvt_not_mem (m : Subs) (e : Nat) (v : List Nat)
    (he : e ∉ keysOf m) : keysOf (setEvt m e v) = keysOf m ++ [e] := by
  induction m with
  | nil => simp [setEvt]
  | cons kv m ih =>
    obtain ⟨k, w⟩ := kv
    rw [keysOf_cons, List.mem_cons] at he
    push_neg at he
    by_cases hk : k = e
    · exact absurd hk.symm he.1
    · simp only [setEvt, if_neg hk, keysOf_cons, ih he.2, List.cons_append]

theorem keysNodup_setEvt (m : Subs) (e : Nat) (v : List Nat)
    (hm : KeysNodup m) : KeysNodup (setEvt m e v) := by
  by_cases he : e ∈ keysOf m
  · unfold KeysNodup
    rw [keysOf_setEvt_mem m e v he]
    exact hm
  · unfold KeysNodup
    rw [keysOf_setEvt_not_mem m e v he]
    simp only [List.nodup_append, List.nodup_cons, List.nodup_nil,
      List.not_mem_nil, not_false_iff, and_true, true_and]
    refine ⟨hm, ?_⟩
    intro a ha hae
    simp only [List.mem_singleton] at hae
    exact he (hae ▸ ha)

theorem eraseEvt_sublist (m : Subs) (e : Nat) : (eraseEvt m e).Sublist m := by
  induction m with
  | nil => simp [eraseEvt]
  | cons kv m ih =>
    obtain ⟨k, w⟩ := kv
    by_cases hk : k = e
    · subst hk
      simp only [eraseEvt, if_pos rfl]
      exact List.sublist_cons_self (k, w) m
    · simpa [eraseEvt, hk] using List.Sublist.cons₂ (k, w) ih

theorem keysNodup_eraseEvt (m : Subs) (e : Nat) (hm : KeysNodup m) :
    KeysNodup (eraseEvt m e) := by
  exact List.Nodup.sublist (List.Sublist.map Prod.fst (eraseEvt_sublist m e)) hm

/-! ### removeFirst lemmas -/

theorem removeFirst_of_forall_not (p : Nat → Bool) (ls : List Nat)
    (hp : ∀ x ∈ ls, p x = false) : removeFirst p ls = ls := by
  induction ls with
  | nil => rfl
  | cons x xs ih =>
    simp [removeFirst, hp x (by simp), ih fun y hy => hp y (by simp [hy])]

theorem removeFirst_append_of_match (p : Nat → Bool) (pre post : List Nat)
    (x : Nat) (hpre : ∀ y ∈ pre, p y = false) (hx : p x = true) :
    removeFirst p (pre ++ x :: post) = pre ++ post := by
  induction pre with
  | nil => simp [removeFirst, hx]
  | cons y ys ih =>
    simp [removeFirst, hpre y (by simp),
      ih fun z hz => hpre z (by simp [hz])]

/-! ### Interpreter equation lemmas -/

theorem step_run_nil (B : Behavior) (f : Nat) (s : EmitterState) :
    step B f s (.run []) = .ok s := by
  cases f <;> rfl

theorem step_seqL_nil (B : Behavior) (f : Nat) (s : EmitterState) (a : Nat) :
    step B f s (.seqL [] a) = .ok s := by
  cases f <;> rfl

theorem step_run_cons_eq (B : Behavior) (f : Nat) (s : EmitterState)
    (c : Cmd) (cs : List Cmd) :
    step B (f + 1) s (.run (c :: cs)) =
      match step B f s (.one c) with
      | .ok s' => step B f s' (.run cs)
      | r => r := rfl

theorem step_seqL_cons_eq (B : Behavior) (f : Nat) (s : EmitterState)
    (h : Nat) (t : List Nat) (a : Nat) :
    step B (f + 1) s (.seqL (h :: t) a) =
      match step B f s (.inv h a) with
      | .ok s' => step B f s' (.seqL t a)
      | r => r := rfl

theorem step_one_onC (B : Behavior) (f : Nat) (s : EmitterState) (e h : Nat) :
    step B (f + 1) s (.one (.onC e h)) = .ok (onE s e h) := rfl

theorem step_one_onceC (B : Behavior) (f : Nat) (s : EmitterState) (e h : Nat) :
    step B (f + 1) s (.one (.onceC e h)) = .ok (once s e h) := rfl

theorem step_one_offC (B : Behavior) (f : Nat) (s : EmitterState) (e h : Nat) :
    step B (f + 1) s (.one (.offC e h)) = .ok (off s e h) := rfl

theorem step_one_throwC (B : Behavior) (f : Nat) (s : EmitterState) (v : Nat) :
    step B (f + 1) s (.one (.throwC v)) = .thrown v s := rfl

theorem step_one_emitC_eq (B : Behavior) (f : Nat) (s : EmitterState)
    (e a : Nat) :
    step B (f + 1) s (.one (.emitC e a)) =
      match lookupEvt s.subs e with
      | none => .ok s
      | some ls => step B f s (.seqL ls a) := rfl

theorem step_inv_eq (B : Behavior) (f : Nat) (s : EmitterState) (h a : Nat) :
    step B (f + 1) s (.inv h a) =
      match s.wrapInfo h with
      | some (e, orig) => step B f (off (bump1 s h a) e h) (.inv orig a)
      | none => step B f (bump1 s h a) (.run (B h (s.counts h))) := rfl

theorem step_inv_plain (B : Behavior) (f : Nat) (s : EmitterState) (h a : Nat)
    (hw : s.wrapInfo h = none) :
    step B (f + 1) s (.inv h a) =
      step B f (bump1 s h a) (.run (B h (s.counts h))) := by
  rw [step_inv_eq, hw]

theorem step_inv_wrap (B : Behavior) (f : Nat) (s : EmitterState)
    (h a e orig : Nat) (hw : s.wrapInfo h = some (e, orig)) :
    step B (f + 1) s (.inv h a) =
      step B f (off (bump1 s h a) e h) (.inv orig a) := by
  rw [step_inv_eq, hw]

theorem step_inv_inert (B : Behavior) (f : Nat) (s : EmitterState) (h a : Nat)
    (hw : s.wrapInfo h = none) (hB : B h (s.counts h) = []) :
    step B (f + 1) s (.inv h a) = .ok (bump1 s h a) := by
  rw [step_inv_plain B f s h a hw, hB, step_run_nil]

/-! ### Inert listeners and complete snapshot runs -/









@[simp] theorem bumpList_nil (s : EmitterState) (a : Nat) :
    bumpList s [] a = s := rfl

theorem bumpList_cons (s : EmitterState) (h : Nat) (t : List Nat) (a : Nat) :
    bumpList s (h :: t) a = bumpList (bump1 s h a) t a := rfl

@[simp] theorem bumpList_subs (s : EmitterState) (ls : List Nat) (a : Nat) :
    (bumpList s ls a).subs = s.subs := by
  induction ls generalizing s with
  | nil => rfl
  | cons h t ih => rw [bumpList_cons, ih, bump1_subs]

@[simp] theorem bumpList_origMap (s : EmitterState) (ls : List Nat) (a : Nat) :
    (bumpList s ls a).origMap = s.origMap := by
  induction ls generalizing s with
  | nil => rfl
  | cons h t ih => rw [bumpList_cons, ih, bump1_origMap]

@[simp] theorem bumpList_wrapInfo (s : EmitterState) (ls : List Nat) (a : Nat) :
    (bumpList s ls a).wrapInfo = s.wrapInfo := by
  induction ls generalizing s with
  | nil => rfl
  | cons h t ih => rw [bumpList_cons, ih, bump1_wrapInfo]

theorem bumpList_log (s : EmitterState) (ls : List Nat) (a : Nat) :
    (bumpList s ls a).log = s.log ++ ls.map (fun h => (h, a)) := by
  induction ls generalizing s with
  | nil => simp
  | cons h t ih =>
    rw [bumpList_cons, ih, bump1_log]
    simp

theorem bumpList_counts_not_mem (s : EmitterState) (ls : List Nat) (a x : Nat)
    (hx : x ∉ ls) :
    (bumpList s ls a).counts x = s.counts x := by
  induction ls generalizing s with
  | nil => rfl
  | cons h t ih =>
    rw [List.mem_cons] at hx
    push_neg at hx
    rw [bumpList_cons, ih _ hx.2, bump1_counts_ne _ _ _ _ hx.1]

theorem bumpList_append (s : EmitterState) (xs ys : List Nat) (a : Nat) :
    bumpList s (xs ++ ys) a = bumpList (bumpList s xs a) ys a := by
  simp [bumpList, List.foldl_append]

theorem seqL_inert (B : Behavior) (a : Nat) :
    ∀ (ls : List Nat) (f : Nat) (s : EmitterState), InertAll B ls →
      PlainAll s ls →
      step B (f + ls.length + 1) s (.seqL ls a) = .ok (bumpList s ls a) := by
  intro ls
  induction ls with
  | nil =>
    intro f s _ _
    exact step_seqL_nil B (f + 0 + 1) s a
  | cons h t ih =>
    intro f s hI hP
    rw [show f + (h :: t).length + 1 = ((f + t.length) + 1) + 1 by
      simp [List.length_cons]; omega]
    rw [step_seqL_cons_eq,
      step_inv_inert B (f + t.length) s h a (hP h (by simp))
        (hI h (by simp) (s.counts h))]
    have := ih f (bump1 s h a)
      (fun x hx => hI x (by simp [hx]))
      (fun x hx => by rw [bump1_wrapInfo]; exact hP x (by simp [hx]))
    show step B (f + t.length + 1) (bump1 s h a) (.seqL t a) =
      .ok (bumpList s (h :: t) a)
    rw [this, bumpList_cons]

theorem seqL_prefix_inert (B : Behavior) (a : Nat) :
    ∀ (pre : List Nat) (f : Nat) (s : EmitterState) (rest : List Nat),
      InertAll B pre → PlainAll s pre →
      step B (f + 1 + pre.length) s (.seqL (pre ++ rest) a) =
        step B (f + 1) (bumpList s pre a) (.seqL rest a) := by
  intro pre
  induction pre with
  | nil => intro f s rest _ _; rfl
  | cons h t ih =>
    intro f s rest hI hP
    rw [show f + 1 + (h :: t).length = ((f + 1 + t.length)) + 1 by
      simp [List.length_cons]; omega]
    rw [List.cons_append, step_seqL_cons_eq]
    rw [show f + 1 + t.length = (f + t.length) + 1 by omega]
    rw [step_inv_inert B (f + t.length) s h a (hP h (by simp))
      (hI h (by simp) (s.counts h))]
    rw [show (f + t.length) + 1 = f + 1 + t.length by omega]
    have := ih f (bump1 s h a) rest
      (fun x hx => hI x (by simp [hx]))
      (fun x hx => by rw [bump1_wrapInfo]; exact hP x (by simp [hx]))
    show step B (f + 1 + t.length) (bump1 s h a) (.seqL (t ++ rest) a) =
      step B (f + 1) (bumpList s (h :: t) a) (.seqL rest a)
    rw [this, bumpList_cons]

/-! ### Generic preservation: `emit` mutates the registry only through the
`on`/`once`/`off` operations invoked by listener callbacks -/





theorem step_preserves (B : Behavior) (P : Subs → Prop)
    (hOn : ∀ m e h, P m → P (onSubs m e h))
    (hOff : ∀ om m e h, P m → P (offSubs om m e h)) :
    ∀ (f : Nat) (s : EmitterState) (t : Task), P s.subs →
      ResP P (step B f s t) := by
  intro f
  induction f with
  | zero =>
    intro s t hP
    cases t with
    | run cs => cases cs with
      | nil => exact hP
      | cons c cs => exact trivial
    | one c => exact trivial
    | seqL ls a => cases ls with
      | nil => exact hP
      | cons h t => exact trivial
    | inv h a => exact trivial
  | succ f ih =>
    intro s t hP
    cases t with
    | run cs =>
      cases cs with
      | nil => exact hP
      | cons c cs =>
        rw [step_run_cons_eq]
        have h1 := ih s (.one c) hP
        cases hst : step B f s (.one c) with
        | ok s' =>
          rw [hst] at h1
          exact ih s' (.run cs) h1
        | thrown v s' =>
          rw [hst] at h1
          exact h1
        | fuelOut => exact trivial
    | one c =>
      cases c with
      | onC e h => exact hOn s.subs e h hP
      | onceC e h => exact hOn s.subs e s.nextId hP
      | offC e h => exact hOff s.origMap s.subs e h hP
      | throwC v => exact hP
      | emitC e a =>
        rw [step_one_emitC_eq]
        cases hlk : lookupEvt s.subs e with
        | none => exact hP
        | some ls => exact ih s (.seqL ls a) hP
    | seqL ls a =>
      cases ls with
      | nil => exact hP
      | cons h t =>
        rw [step_seqL_cons_eq]
        have h1 := ih s (.inv h a) hP
        cases hst : step B f s (.inv h a) with
        | ok s' =>
          rw [hst] at h1
          exact ih s' (.seqL t a) h1
        | thrown v s' =>
          rw [hst] at h1
          exact h1
        | fuelOut => exact trivial
    | inv h a =>
      rw [step_inv_eq]
      cases hw : s.wrapInfo h with
      | none => exact ih (bump1 s h a) (.run (B h (s.counts h))) hP
      | some p =>
        obtain ⟨e, orig⟩ := p
        refine ih (off (bump1 s h a) e h) (.inv orig a) ?_
        exact hOff (bump1 s h a).origMap (bump1 s h a).subs e h hP

theorem emit_preserves (B : Behavior) (P : Subs → Prop)
    (hOn : ∀ m e h, P m → P (onSubs m e h))
    (hOff : ∀ om m e h, P m → P (offSubs om m e h))
    (f : Nat) (s : EmitterState) (e a : Nat) (hP : P s.subs) :
    EmitResP P (emit B f s e a) := by
  cases hlk : lookupEvt s.subs e with
  | none =>
    unfold emit
    rw [hlk]
    exact hP
  | some ls =>
    unfold emit
    rw [hlk]
    show EmitResP P (match step B f s (.seqL ls a) with
      | .ok s' => .ok true s'
      | .thrown v s' => .thrown v s'
      | .fuelOut => .fuelOut)
    have h1 := step_preserves B P hOn hOff f s (.seqL ls a) hP
    cases hst : step B f s (.seqL ls a) with
    | ok s' =>
      rw [hst] at h1
      exact h1
    | thrown v s' =>
      rw [hst] at h1
      exact h1
    | fuelOut => exact trivial

/-! ### Unfolding helpers for `emit` and `offSubs` -/

theorem emit_none (B : Behavior) (f : Nat) (s : EmitterState) (e a : Nat)
    (hlk : lookupEvt s.subs e = none) : emit B f s e a = .ok false s := by
  unfold emit
  rw [hlk]

theorem emit_some (B : Behavior) (f : Nat) (s : EmitterState) (e a : Nat)
    (ls : List Nat) (hlk : lookupEvt s.subs e = some ls) :
    emit B f s e a =
      match step B f s (.seqL ls a) with
      | .ok s' => .ok true s'
      | .thrown v s' => .thrown v s'
      | .fuelOut => .fuelOut := by
  unfold emit
  rw [hlk]

theorem offSubs_none (om : Nat → Option Nat) (m : Subs) (e h : Nat)
    (hlk : lookupEvt m e = none) : offSubs om m e h = m := by
  unfold offSubs
  rw [hlk]

theorem offSubs_some (om : Nat → Option Nat) (m : Subs) (e h : Nat)
    (ls : List Nat) (hlk : lookupEvt m e = some ls) :
    offSubs om m e h =
      if removeFirst (matchesH om h) ls = [] then eraseEvt m e
      else setEvt m e (removeFirst (matchesH om h) ls) := by
  unfold offSubs
  rw [hlk]

theorem offSubs_lookup_ne (om : Nat → Option Nat) (m : Subs) (e h e' : Nat)
    (hx : e' ≠ e) : lookupEvt (offSubs om m e h) e' = lookupEvt m e' := by
  cases hlk : lookupEvt m e with
  | none => rw [offSubs_none om m e h hlk]
  | some ls =>
    rw [offSubs_some om m e h ls hlk]
    by_cases hrm : removeFirst (matchesH om h) ls = []
    · rw [if_pos hrm]
      exact lookupEvt_eraseEvt_ne m e e' hx
    · rw [if_neg hrm, lookupEvt_setEvt, if_neg hx]

/-! ### C6 -/

/-- C6: when `dispatch(e, args)` finds listeners `L1..Ln` registered for `e`
(in subscription order), it snapshots the sequence before any listener runs
and invokes exactly `L1,...,Ln` in that order, each with the emitted
argument, then returns `true`.  The final state is exactly the initial
state with each snapshot listener's invocation recorded once, in snapshot
order, with the emitted argument; the log extension exhibits the order.
(The listeners are plain and inert here; re-entrant mutation during a
dispatch is the subject of the snapshot-isolation claim.)  The invocation
context `this` is outside the embedding: the model has a single emitter
instance. -/
theorem c6_dispatch_snapshot_order (B : Behavior) (s : EmitterState)
    (e a f : Nat) (ls : List Nat) (hlk : lookupEvt s.subs e = some ls)
    (hI : InertAll B ls) (hP : PlainAll s ls) :
    emit B (f + ls.length + 1) s e a = .ok true (bumpList s ls a)
    ∧ (bumpList s ls a).log = s.log ++ ls.map (fun h => (h, a)) := by
  constructor
  · rw [emit_some B (f + ls.length + 1) s e a ls hlk,
      seqL_inert B a ls f s hI hP]
  · exact bumpList_log s ls a

/-- Witness for C6 at a concrete input: two listeners on event 0. -/
theorem c6_dispatch_snapshot_order_witness :
    emit B0 (2 + [100, 101].length + 1) (onE (onE emptyState 0 100) 0 101)
        0 9 =
      .ok true (bumpList (onE (onE emptyState 0 100) 0 101) [100, 101] 9)
    ∧ (bumpList (onE (onE emptyState 0 100) 0 101) [100, 101] 9).log =
        (onE (onE emptyState 0 100) 0 101).log ++
          [100, 101].map (fun h => (h, 9)) :=
  c6_dispatch_snapshot_order B0 (onE (onE emptyState 0 100) 0 101) 0 9 2
    [100, 101] (by decide) (fun h _ n => rfl) (fun h _ => rfl)

/-! ### C8 -/

/-- C8: no-op conditions are not errors.  Dispatching an event with no
registry entry returns `false` and leaves the state untouched (so no
listener is invoked); unsubscribing from a non-existent event, or
unsubscribing a handler that matches no stored entry, returns the state
completely unchanged.  (The third part assumes the stored sequence is
non-empty, which holds in every reachable state by the C5 invariant; the
source would drop an empty-but-present key even on a non-matching
`off`.) -/
theorem c8_noop_not_error (B : Behavior) :
    (∀ f s e a, lookupEvt s.subs e = none → emit B f s e a = .ok false s)
    ∧ (∀ s e h, lookupEvt s.subs e = none → off s e h = s)
    ∧ (∀ s e h ls, lookupEvt s.subs e = some ls → ls ≠ [] →
        (∀ l ∈ ls, matchesH s.origMap h l = false) → off s e h = s) := by
  refine ⟨fun f s e a hlk => emit_none B f s e a hlk, ?_, ?_⟩
  · intro s e h hlk
    show { s with subs := offSubs s.origMap s.subs e h } = s
    rw [offSubs_none s.origMap s.subs e h hlk]
  · intro s e h ls hlk hne hnom
    show { s with subs := offSubs s.origMap s.subs e h } = s
    rw [offSubs_some s.origMap s.subs e h ls hlk,
      removeFirst_of_forall_not _ ls hnom, if_neg hne,
      setEvt_self s.subs e ls hlk]

/-- Witness for C8 at concrete inputs: event 1 has no entry; handler 55 is
not registered for event 0. -/
theorem c8_noop_not_error_witness :
    emit B0 3 (onE emptyState 0 100) 1 9 = .ok false (onE emptyState 0 100)
    ∧ off (onE emptyState 0 100) 1 77 = onE emptyState 0 100
    ∧ off (onE emptyState 0 100) 0 55 = onE emptyState 0 100 :=
  ⟨(c8_noop_not_error B0).1 3 (onE emptyState 0 100) 1 9 (by decide),
   (c8_noop_not_error B0).2.1 (onE emptyState 0 100) 1 77 (by decide),
   (c8_noop_not_error B0).2.2 (onE emptyState 0 100) 0 55 [100] (by decide)
     (by decide) (by decide)⟩

/-! ### C10 -/

/-- C10: frame effects.  `on`, `once` and `off` for event `e` leave the
stored listener sequence of every other event `e'` unchanged; and `emit`
itself performs no registry mutation: every registry predicate closed
under the `on`/`once`/`off` registry transformations is preserved by a
whole dispatch (all mutation during dispatch goes through listener
callbacks invoking those operations), and a dispatch over listeners that
perform no registry operation leaves the registry exactly as it was. -/
theorem c10_frame_effects (B : Behavior) :
    (∀ s e h e', e' ≠ e →
      lookupEvt (onE s e h).subs e' = lookupEvt s.subs e'
      ∧ lookupEvt (once s e h).subs e' = lookupEvt s.subs e'
      ∧ lookupEvt (off s e h).subs e' = lookupEvt s.subs e')
    ∧ (∀ P : Subs → Prop, (∀ m e h, P m → P (onSubs m e h)) →
        (∀ om m e h, P m → P (offSubs om m e h)) →
        ∀ f s e a, P s.subs → EmitResP P (emit B f s e a))
    ∧ (∀ f s e a ls, lookupEvt s.subs e = some ls → InertAll B ls →
        PlainAll s ls →
        emit B (f + ls.length + 1) s e a = .ok true (bumpList s ls a)
        ∧ (bumpList s ls a).subs = s.subs) := by
  refine ⟨?_, ?_, ?_⟩
  · intro s e h e' hx
    refine ⟨?_, ?_, ?_⟩
    · rw [onE_subs]
      unfold onSubs
      rw [lookupEvt_setEvt, if_neg hx]
    · rw [once_subs]
      unfold onSubs
      rw [lookupEvt_setEvt, if_neg hx]
    · rw [off_subs]
      exact offSubs_lookup_ne s.origMap s.subs e h e' hx
  · intro P hOn hOff f s e a hP
    exact emit_preserves B P hOn hOff f s e a hP
  · intro f s e a ls hlk hI hP
    refine ⟨?_, bumpList_subs s ls a⟩
    rw [emit_some B (f + ls.length + 1) s e a ls hlk,
      seqL_inert B a ls f s hI hP]

/-- Witness for C10 at concrete inputs. -/
theorem c10_frame_effects_witness :
    (lookupEvt (onE (onE emptyState 0 100) 1 200).subs 0 =
        lookupEvt (onE emptyState 0 100).subs 0
      ∧ lookupEvt (once (onE emptyState 0 100) 1 200).subs 0 =
          lookupEvt (onE emptyState 0 100).subs 0
      ∧ lookupEvt (off (onE emptyState 0 100) 1 200).subs 0 =
          lookupEvt (onE emptyState 0 100).subs 0)
    ∧ (emit B0 (0 + [100].length + 1) (onE emptyState 0 100) 0 9 =
        .ok true (bumpList (onE emptyState 0 100) [100] 9)
      ∧ (bumpList (onE emptyState 0 100) [100] 9).subs =
          (onE emptyState 0 100).subs) :=
  ⟨(c10_frame_effects B0).1 (onE emptyState 0 100) 1 200 0 (by decide),
   (c10_frame_effects B0).2.2 0 (onE emptyState 0 100) 0 9 [100] (by decide)
     (fun h _ n => rfl) (fun h _ => rfl)⟩

/-! ### C5 -/



theorem goodSubs_onSubs (m : Subs) (e h : Nat) (hm : GoodSubs m) :
    GoodSubs (onSubs m e h) := by
  constructor
  · exact keysNodup_setEvt m e _ hm.1
  · intro e' ls' hl
    unfold onSubs at hl
    rw [lookupEvt_setEvt] at hl
    by_cases hx : e' = e
    · rw [if_pos hx] at hl
      cases hl
      simp
    · rw [if_neg hx] at hl
      exact hm.2 e' ls' hl

theorem goodSubs_offSubs (om : Nat → Option Nat) (m : Subs) (e h : Nat)
    (hm : GoodSubs m) : GoodSubs (offSubs om m e h) := by
  cases hlk : lookupEvt m e with
  | none => rw [offSubs_none om m e h hlk]; exact hm
  | some ls =>
    rw [offSubs_some om m e h ls hlk]
    by_cases hrm : removeFirst (matchesH om h) ls = []
    · rw [if_pos hrm]
      refine ⟨keysNodup_eraseEvt m e hm.1, ?_⟩
      intro e' ls' hl
      by_cases hx : e' = e
      · subst hx
        rw [lookupEvt_eraseEvt_self m e' hm.1] at hl
        cases hl
      · rw [lookupEvt_eraseEvt_ne m e e' hx] at hl
        exact hm.2 e' ls' hl
    · rw [if_neg hrm]
      refine ⟨keysNodup_setEvt m e _ hm.1, ?_⟩
      intro e' ls' hl
      rw [lookupEvt_setEvt] at hl
      by_cases hx : e' = e
      · rw [if_pos hx] at hl
        cases hl
        exact hrm
      · rw [if_neg hx] at hl
        exact hm.2 e' ls' hl



theorem reachable_goodSubs (B : Behavior) (s : EmitterState)
    (h : Reachable B s) : GoodSubs s.subs := by
  induction h with
  | empty =>
    constructor
    · simp [emptyState, KeysNodup, keysOf]
    · intro e ls hl
      simp [emptyState, lookupEvt] at hl
  | onR e h _ ih => exact goodSubs_onSubs _ e h ih
  | onceR e h _ ih => exact goodSubs_onSubs _ e _ ih
  | offR e h _ ih => exact goodSubs_offSubs _ _ e h ih
  | emitOkR f e a _ hem ih =>
    have hpr := emit_preserves B GoodSubs
      (fun m e h hm => goodSubs_onSubs m e h hm)
      (fun om m e h hm => goodSubs_offSubs om m e h hm) f _ e a ih
    rw [hem] at hpr
    exact hpr
  | emitThrownR f e a _ hem ih =>
    have hpr := emit_preserves B GoodSubs
      (fun m e h hm => goodSubs_onSubs m e h hm)
      (fun om m e h hm => goodSubs_offSubs om m e h hm) f _ e a ih
    rw [hem] at hpr
    exact hpr

/-- C5: in every reachable registry state, an event key present in the
mapping maps to a non-empty listener sequence; dispatching an event with no
key returns the `false` no-listeners signal without touching the state;
and removing the last listener of an event (by `off`, the same path the
one-shot wrapper uses for self-removal) removes the key itself, so the
subsequent dispatch takes the no-listeners path. -/
theorem c5_no_empty_key (B : Behavior) :
    (∀ s, Reachable B s → ∀ e ls, lookupEvt s.subs e = some ls → ls ≠ [])
    ∧ (∀ f s e a, lookupEvt s.subs e = none → emit B f s e a = .ok false s)
    ∧ (∀ s e h x, Reachable B s → lookupEvt s.subs e = some [x] →
        matchesH s.origMap h x = true →
        lookupEvt (off s e h).subs e = none) := by
  refine ⟨?_, fun f s e a hlk => emit_none B f s e a hlk, ?_⟩
  · intro s hr e ls hl
    exact (reachable_goodSubs B s hr).2 e ls hl
  · intro s e h x hr hlk hmx
    rw [off_subs, offSubs_some s.origMap s.subs e h [x] hlk]
    have hrm : removeFirst (matchesH s.origMap h) [x] = [] := by
      unfold removeFirst
      rw [hmx]
      rfl
    rw [if_pos hrm]
    exact lookupEvt_eraseEvt_self s.subs e (reachable_goodSubs B s hr).1

/-- Witness for C5 at concrete inputs: one listener on event 0, removed. -/
theorem c5_no_empty_key_witness :
    ([100] : List Nat) ≠ []
    ∧ emit B0 3 (onE emptyState 0 100) 1 9 = .ok false (onE emptyState 0 100)
    ∧ lookupEvt (off (onE emptyState 0 100) 0 100).subs 0 = none :=
  ⟨(c5_no_empty_key B0).1 (onE emptyState 0 100)
      (Reachable.onR 0 100 Reachable.empty) 0 [100] (by decide),
   (c5_no_empty_key B0).2.1 3 (onE emptyState 0 100) 1 9 (by decide),
   (c5_no_empty_key B0).2.2 (onE emptyState 0 100) 0 100 100
      (Reachable.onR 0 100 Reachable.empty) (by decide) (by decide)⟩

/-! ### C7 -/

/-- C7: subscribing the same handler twice to the same event creates two
independent entries, both retained in order; a dispatch then invokes the
handler twice; and a single `off` removes only the first matching entry,
leaving the other registered. -/
theorem c7_duplicate_registration (B : Behavior) :
    (∀ s e h, lookupEvt (onE (onE s e h) e h).subs e =
        some ((((lookupEvt s.subs e).getD []) ++ [h]) ++ [h]))
    ∧ (∀ s e h ls, lookupEvt s.subs e = some ls →
        (∀ l ∈ ls, matchesH s.origMap h l = false) →
        lookupEvt (off (onE (onE s e h) e h) e h).subs e = some (ls ++ [h]))
    ∧ countsAfterEmit B0 9 (onE (onE emptyState 0 100) 0 100) 0 9 100 =
        some 2 := by
  refine ⟨?_, ?_, by decide⟩
  · intro s e h
    rw [onE_subs, onE_subs]
    unfold onSubs
    rw [lookupEvt_setEvt, if_pos rfl, lookupEvt_setEvt, if_pos rfl]
    simp
  · intro s e h ls hlk hnom
    rw [off_subs, onE_origMap, onE_origMap, onE_subs, onE_subs]
    have hl2 : lookupEvt (onSubs (onSubs s.subs e h) e h) e =
        some (ls ++ [h] ++ [h]) := by
      unfold onSubs
      rw [lookupEvt_setEvt, if_pos rfl, lookupEvt_setEvt, if_pos rfl, hlk]
      rfl
    rw [offSubs_some _ _ e h _ hl2]
    have hmm : matchesH s.origMap h h = true := by
      simp [matchesH]
    have hrm : removeFirst (matchesH s.origMap h) (ls ++ [h] ++ [h]) =
        ls ++ [h] := by
      rw [List.append_assoc, List.singleton_append]
      exact removeFirst_append_of_match _ ls [h] h hnom hmm
    rw [hrm, if_neg (by simp), lookupEvt_setEvt, if_pos rfl]

/-- Witness for C7 at concrete inputs: handler 100 registered twice for
event 0, then removed once. -/
theorem c7_duplicate_registration_witness :
    lookupEvt (onE (onE emptyState 0 100) 0 100).subs 0 =
      some ((([] : List Nat) ++ [100]) ++ [100])
    ∧ lookupEvt
        (off (onE (onE (onE emptyState 5 77) 5 100) 5 100) 5 100).subs 5 =
        some ([77] ++ [100]) :=
  ⟨by
    have h1 := (c7_duplicate_registration B0).1 emptyState 0 100
    simpa using h1,
   (c7_duplicate_registration B0).2.1 (onE emptyState 5 77) 5 100 [77]
     (by decide) (by decide)⟩

/-! ### C3 -/

/-- C3: identity-based removal.  After `once(e, h)` and before the one-shot
fires, `off(e, h)` with the original, unwrapped handler reference `h`
locates the pending adapter through its recorded `originalFunction`
back-reference and removes it, restoring the listener sequence for `e` to
what it was before `once` (even though `h` itself was never stored); a
subsequent dispatch of `e` from a fresh emitter then takes the
no-listeners path and never invokes `h`.  The hypotheses say the registry
satisfies its representation invariant and that `h` has no other matching
entry under `e` (and that the listener list does not accidentally contain
the about-to-be-allocated wrapper identity). -/
theorem c3_identity_based_removal (B : Behavior) :
    (∀ s e h, GoodSubs s.subs →
      (∀ l ∈ (lookupEvt s.subs e).getD [],
        matchesH s.origMap h l = false ∧ l ≠ s.nextId) →
      lookupEvt (off (once s e h) e h).subs e = lookupEvt s.subs e)
    ∧ emit B0 9 (off (once emptyState 0 100) 0 100) 0 9 =
        .ok false (off (once emptyState 0 100) 0 100)
    ∧ countsAfterEmit B0 9 (off (once emptyState 0 100) 0 100) 0 9 100 =
        some 0 := by
  refine ⟨?_, rfl, by decide⟩
  intro s e h hg hno
  rw [off_subs, once_origMap, once_subs]
  cases hlk : lookupEvt s.subs e with
  | none =>
    have hsub1 : lookupEvt (onSubs s.subs e s.nextId) e = some [s.nextId] := by
      unfold onSubs
      rw [lookupEvt_setEvt, if_pos rfl, hlk]
      rfl
    rw [offSubs_some _ _ e h _ hsub1]
    have hrm : removeFirst
        (matchesH (fun x => if x = s.nextId then some h else s.origMap x) h)
        [s.nextId] = [] := by
      simp [removeFirst, matchesH]
    rw [hrm, if_pos rfl]
    exact lookupEvt_eraseEvt_self _ e (keysNodup_setEvt _ _ _ hg.1)
  | some ls0 =>
    have hne : ls0 ≠ [] := hg.2 e ls0 hlk
    have hsub1 : lookupEvt (onSubs s.subs e s.nextId) e =
        some (ls0 ++ [s.nextId]) := by
      unfold onSubs
      rw [lookupEvt_setEvt, if_pos rfl, hlk]
      rfl
    rw [offSubs_some _ _ e h _ hsub1]
    have hnom : ∀ l ∈ ls0, matchesH
        (fun x => if x = s.nextId then some h else s.origMap x) h l =
          false := by
      intro l hl
      have hcond := hno l (by rw [hlk]; exact hl)
      have h1 := hcond.1
      unfold matchesH at h1 ⊢
      simp only []
      rw [if_neg hcond.2]
      exact h1
    have hmw : matchesH
        (fun x => if x = s.nextId then some h else s.origMap x) h
        s.nextId = true := by
      simp [matchesH]
    have hrm : removeFirst
        (matchesH (fun x => if x = s.nextId then some h else s.origMap x) h)
        (ls0 ++ [s.nextId]) = ls0 := by
      have hr := removeFirst_append_of_match _ ls0 [] s.nextId hnom hmw
      simpa using hr
    rw [hrm, if_neg hne, lookupEvt_setEvt, if_pos rfl]

/-- Witness for C3 at a concrete input: handler 55 already stored for
event 0, then `once(0, 100)` followed by `off(0, 100)`. -/
theorem c3_identity_based_removal_witness :
    lookupEvt (off (once (onE emptyState 0 55) 0 100) 0 100).subs 0 =
      lookupEvt (onE emptyState 0 55).subs 0 :=
  (c3_identity_based_removal B0).1 (onE emptyState 0 55) 0 100
    (reachable_goodSubs B0 _ (Reachable.onR 0 55 Reachable.empty))
    (by decide)

/-! ### C9 -/

/-- C9: an exception thrown by the listener at position `k` of the
dispatch's snapshot is not caught by the dispatch core: the `thrown` result
surfaces to the caller of `emit`, and the log of the final state shows that
exactly the listeners before the throwing one plus the throwing one itself
ran — the listeners after position `k` in the same snapshot are not
invoked (abort-on-error, not isolate-and-continue). -/
theorem c9_listener_exception_propagates (B : Behavior) (s : EmitterState)
    (e a f v t : Nat) (pre post : List Nat)
    (hlk : lookupEvt s.subs e = some (pre ++ t :: post))
    (hpreI : InertAll B pre) (hpreP : PlainAll s pre)
    (htP : s.wrapInfo t = none) (htB : ∀ n, B t n = [Cmd.throwC v]) :
    emit B (f + pre.length + 4) s e a =
      .thrown v (bump1 (bumpList s pre a) t a)
    ∧ (bump1 (bumpList s pre a) t a).log =
        s.log ++ pre.map (fun h => (h, a)) ++ [(t, a)] := by
  constructor
  · rw [emit_some B (f + pre.length + 4) s e a (pre ++ t :: post) hlk]
    rw [show f + pre.length + 4 = (f + 3) + 1 + pre.length by omega]
    rw [seqL_prefix_inert B a pre (f + 3) s (t :: post) hpreI hpreP]
    rw [step_seqL_cons_eq]
    have hinv : step B (f + 3) (bumpList s pre a) (.inv t a) =
        .thrown v (bump1 (bumpList s pre a) t a) := by
      rw [show f + 3 = (f + 2) + 1 by omega]
      rw [step_inv_plain B (f + 2) (bumpList s pre a) t a
        (by rw [bumpList_wrapInfo]; exact htP)]
      rw [htB]
      rw [show f + 2 = (f + 1) + 1 by omega]
      rw [step_run_cons_eq B (f + 1) (bump1 (bumpList s pre a) t a)
        (.throwC v) []]
      rw [step_one_throwC]
    rw [hinv]
  · rw [bump1_log, bumpList_log]

/-- Witness for C9 at a concrete input: listeners 50, 100, 60 for event 0,
where 100 throws the value 7; listener 60 does not run. -/
theorem c9_listener_exception_propagates_witness :
    emit Bt (0 + [50].length + 4) (onE (onE (onE emptyState 0 50) 0 100) 0 60)
        0 9 =
      .thrown 7
        (bump1 (bumpList (onE (onE (onE emptyState 0 50) 0 100) 0 60) [50] 9)
          100 9)
    ∧ (bump1 (bumpList (onE (onE (onE emptyState 0 50) 0 100) 0 60) [50] 9)
          100 9).log =
        (onE (onE (onE emptyState 0 50) 0 100) 0 60).log ++
          [50].map (fun h => (h, 9)) ++ [(100, 9)] :=
  c9_listener_exception_propagates Bt
    (onE (onE (onE emptyState 0 50) 0 100) 0 60) 0 9 0 7 100 [50] [60]
    (by decide)
    (by
      intro h hm n
      simp only [List.mem_singleton] at hm
      subst hm
      rfl)
    (fun h _ => rfl) rfl (fun n => rfl)

/-! ### C4 -/

/-- C4: the adapter installed by `once(e, h)` first removes itself from the
registry using the same removal path as `unsubscribe` (the `off`
operation, by its own wrapper reference), and only then invokes the
original handler with the emitted argument — this is the defining equation
of wrapper invocation, proved from the interpreter.  Consequently a
re-entrant dispatch of `e` from inside `h`'s own body does not invoke the
one-shot a second time: at a concrete input where the wrapped handler 102
re-emits its own event, 102 runs exactly once, the wrapper entry is gone
afterwards, and the dispatch still completes with `true`. -/
theorem c4_once_removal_before_invocation (B : Behavior) :
    (∀ f s h a e orig, s.wrapInfo h = some (e, orig) →
      step B (f + 1) s (.inv h a) =
        step B f (off (bump1 s h a) e h) (.inv orig a))
    ∧ countsAfterEmit B4 20 (once (onE emptyState 0 100) 0 102) 0 3 102 =
        some 1
    ∧ lookupAfterEmit B4 20 (once (onE emptyState 0 100) 0 102) 0 3 0 =
        some (some [100])
    ∧ boolAfterEmit B4 20 (once (onE emptyState 0 100) 0 102) 0 3 =
        some true := by
  refine ⟨?_, by decide, by decide, by decide⟩
  intro f s h a e orig hw
  exact step_inv_wrap B f s h a e orig hw

/-- Witness for C4 at a concrete input: the wrapper allocated by
`once(0, 102)` has identity 0; invoking it first removes it via `off`,
then invokes 102. -/
theorem c4_once_removal_before_invocation_witness :
    step B4 (5 + 1) (once (onE emptyState 0 100) 0 102) (.inv 0 3) =
      step B4 5 (off (bump1 (once (onE emptyState 0 100) 0 102) 0 3) 0 0)
        (.inv 102 3) :=
  (c4_once_removal_before_invocation B4).1 5
    (once (onE emptyState 0 100) 0 102) 0 3 0 102 (by decide)

/-! ### C2 -/

/-- C2 counterexample: the claim promises the `subscribeOnce` handler is
invoked exactly once in total "including when dispatch of e is re-entered
recursively before the one-shot's removal completes".  At this concrete
input that fails: event 5 has listeners `[100, wrapper(101)]`, and
listener 100 re-enters `emit(5)` before the wrapper has run.  The wrapper
is in both the outer and the nested snapshots, so its body runs twice, and
since its self-`off` is a silent no-op the second time, handler 101 is
invoked twice by a single outer dispatch (which completes normally). -/
theorem c2_counterexample :
    countsAfterEmit B2 30 (once (onE emptyState 5 100) 5 101) 5 9 101 =
      some 2
    ∧ boolAfterEmit B2 30 (once (onE emptyState 5 100) 5 101) 5 9 =
        some true := by
  decide

/-- C2 (amended): provided no dispatch of `e` is re-entered before the
one-shot adapter's first invocation, the handler `h` registered via
`subscribeOnce` is invoked exactly once and its registry entry is removed
exactly once, even when `h`'s own body re-enters `emit(e)` recursively:
the adapter `w` heads the snapshot, removes itself before calling `h`, the
re-entrant dispatch from inside `h` sees a registry without `w` (the key
itself is gone when no listener remains), and afterwards `h`'s invocation
count rose by exactly one and `w` is no longer stored. -/
theorem c2_amended_once_self_reentrancy (B : Behavior) (s : EmitterState)
    (e a w h f : Nat) (post : List Nat)
    (hg : KeysNodup s.subs)
    (hlk : lookupEvt s.subs e = some (w :: post))
    (hw : s.wrapInfo w = some (e, h))
    (hh : s.wrapInfo h = none)
    (hne : w ≠ h)
    (hB0 : B h (s.counts h) = [Cmd.emitC e a])
    (hpostI : InertAll B post) (hpostP : PlainAll s post)
    (hhpost : h ∉ post) :
    emit B (f + post.length + 7) s e a =
      .ok true
        (bumpList (bump1 (off (bump1 s w a) e w) h a) (post ++ post) a)
    ∧ (bumpList (bump1 (off (bump1 s w a) e w) h a)
        (post ++ post) a).counts h = s.counts h + 1
    ∧ lookupEvt (bumpList (bump1 (off (bump1 s w a) e w) h a)
        (post ++ post) a).subs e =
        (if post = [] then none else some post) := by
  have hrm : removeFirst (matchesH s.origMap w) (w :: post) = post := by
    simp [removeFirst, matchesH]
  have hs2subs : (off (bump1 s w a) e w).subs =
      offSubs s.origMap s.subs e w := by
    rw [off_subs, bump1_origMap, bump1_subs]
  have hlk2 : lookupEvt (off (bump1 s w a) e w).subs e =
      (if post = [] then none else some post) := by
    rw [hs2subs, offSubs_some _ _ e w _ hlk, hrm]
    by_cases hp : post = []
    · rw [if_pos hp, if_pos hp]
      exact lookupEvt_eraseEvt_self _ e hg
    · rw [if_neg hp, if_neg hp, lookupEvt_setEvt, if_pos rfl]
  have hc : (off (bump1 s w a) e w).counts h = s.counts h := by
    rw [off_counts]
    exact bump1_counts_ne s w a h (Ne.symm hne)
  have hwrap2 : (off (bump1 s w a) e w).wrapInfo = s.wrapInfo := by
    rw [off_wrapInfo, bump1_wrapInfo]
  have hinvw : step B (f + post.length + 6) s (.inv w a) =
      .ok (bumpList (bump1 (off (bump1 s w a) e w) h a) post a) := by
    rw [show f + post.length + 6 = (f + post.length + 5) + 1 by omega]
    rw [step_inv_wrap B (f + post.length + 5) s w a e h hw]
    rw [show f + post.length + 5 = (f + post.length + 4) + 1 by omega]
    rw [step_inv_plain B (f + post.length + 4) (off (bump1 s w a) e w) h a
      (by rw [hwrap2]; exact hh)]
    rw [hc, hB0]
    rw [show f + post.length + 4 = (f + post.length + 3) + 1 by omega]
    rw [step_run_cons_eq]
    have hone : step B (f + post.length + 3)
        (bump1 (off (bump1 s w a) e w) h a) (.one (.emitC e a)) =
        .ok (bumpList (bump1 (off (bump1 s w a) e w) h a) post a) := by
      rw [show f + post.length + 3 = (f + post.length + 2) + 1 by omega]
      rw [step_one_emitC_eq, bump1_subs, hlk2]
      by_cases hp : post = []
      · subst hp
        simp
      · rw [if_neg hp]
        rw [show f + post.length + 2 = (f + 1) + post.length + 1 by omega]
        exact seqL_inert B a post (f + 1)
          (bump1 (off (bump1 s w a) e w) h a) hpostI
          (fun x hx => by
            rw [bump1_wrapInfo, hwrap2]
            exact hpostP x hx)
    rw [hone]
    show step B (f + post.length + 3)
        (bumpList (bump1 (off (bump1 s w a) e w) h a) post a) (.run []) =
      .ok (bumpList (bump1 (off (bump1 s w a) e w) h a) post a)
    exact step_run_nil B _ _
  have houter : step B (f + post.length + 6)
      (bumpList (bump1 (off (bump1 s w a) e w) h a) post a) (.seqL post a) =
      .ok (bumpList (bumpList (bump1 (off (bump1 s w a) e w) h a) post a)
        post a) := by
    rw [show f + post.length + 6 = (f + 5) + post.length + 1 by omega]
    exact seqL_inert B a post (f + 5)
      (bumpList (bump1 (off (bump1 s w a) e w) h a) post a) hpostI
      (fun x hx => by
        rw [bumpList_wrapInfo, bump1_wrapInfo, hwrap2]
        exact hpostP x hx)
  refine ⟨?_, ?_, ?_⟩
  · rw [emit_some B (f + post.length + 7) s e a (w :: post) hlk]
    rw [show f + post.length + 7 = (f + post.length + 6) + 1 by omega]
    rw [step_seqL_cons_eq, hinvw]
    show (match step B (f + post.length + 6)
        (bumpList (bump1 (off (bump1 s w a) e w) h a) post a)
        (.seqL post a) with
      | Res.ok s' => EmitRes.ok true s'
      | Res.thrown v s' => EmitRes.thrown v s'
      | Res.fuelOut => EmitRes.fuelOut) =
      EmitRes.ok true
        (bumpList (bump1 (off (bump1 s w a) e w) h a) (post ++ post) a)
    rw [houter, bumpList_append]
  · rw [bumpList_counts_not_mem _ _ _ _ (by simp [hhpost]),
      bump1_counts_self, hc]
  · rw [bumpList_subs, bump1_subs, hlk2]

/-- Witness for the amended C2 at a concrete input: event 5 carries the
adapter for handler 101 (identity 0) followed by inert listener 60;
handler 101 re-enters `emit(5, 9)` from its own body and still runs
exactly once. -/
theorem c2_amended_once_self_reentrancy_witness :
    emit B2w (0 + [60].length + 7) (onE (once emptyState 5 101) 5 60) 5 9 =
      .ok true
        (bumpList
          (bump1 (off (bump1 (onE (once emptyState 5 101) 5 60) 0 9) 5 0)
            101 9)
          ([60] ++ [60]) 9)
    ∧ (bumpList
        (bump1 (off (bump1 (onE (once emptyState 5 101) 5 60) 0 9) 5 0)
          101 9)
        ([60] ++ [60]) 9).counts 101 =
        (onE (once emptyState 5 101) 5 60).counts 101 + 1
    ∧ lookupEvt
        (bumpList
          (bump1 (off (bump1 (onE (once emptyState 5 101) 5 60) 0 9) 5 0)
            101 9)
          ([60] ++ [60]) 9).subs 5 =
        (if ([60] : List Nat) = [] then none else some [60]) :=
  c2_amended_once_self_reentrancy B2w (onE (once emptyState 5 101) 5 60)
    5 9 0 101 0 [60] (by unfold KeysNodup; decide) (by decide) (by decide)
    (by decide) (by decide) (by decide)
    (by
      intro x hx n
      simp only [List.mem_singleton] at hx
      subst hx
      rfl)
    (by
      intro x hx
      simp only [List.mem_singleton] at hx
      subst hx
      rfl)
    (by decide)

/-! ### C1 -/

/-- C1: snapshot isolation.  First part (general scenario): the listeners
for `e` are `pre ++ [Lk] ++ mid ++ [Lj] ++ post`, and `Lk`, when invoked,
unsubscribes the later listener `Lj` of the same event while every other
listener is inert.  The dispatch completes, its log extension is exactly
the full starting snapshot in order — so `Lj` is still invoked by the
current dispatch even though it was removed mid-dispatch — and the stored
sequence afterwards is the original one without `Lj`, so `Lj` is absent
from all subsequent dispatches.  Second part (concrete): a listener that
subscribes a new handler 102 during dispatch does not cause 102 to be
invoked by that dispatch (the log has only the two snapshot listeners and
102's count stays 0), while 102 is registered for future dispatches. -/
theorem c1_snapshot_isolation (B : Behavior) :
    (∀ (s : EmitterState) (e a f : Nat) (pre mid post : List Nat) (k j : Nat),
      lookupEvt s.subs e = some (pre ++ k :: (mid ++ j :: post)) →
      InertAll B pre → PlainAll s pre →
      s.wrapInfo k = none → (∀ n, B k n = [Cmd.offC e j]) →
      InertAll B mid → PlainAll s mid →
      Inert B j → s.wrapInfo j = none →
      InertAll B post → PlainAll s post →
      (∀ l ∈ pre ++ k :: mid, matchesH s.origMap j l = false) →
      emit B (f + pre.length + mid.length + post.length + 5) s e a =
        .ok true
          (bumpList (off (bump1 (bumpList s pre a) k a) e j)
            (mid ++ j :: post) a)
      ∧ (bumpList (off (bump1 (bumpList s pre a) k a) e j)
          (mid ++ j :: post) a).log =
          s.log ++ (pre ++ k :: (mid ++ j :: post)).map (fun x => (x, a))
      ∧ lookupEvt (bumpList (off (bump1 (bumpList s pre a) k a) e j)
          (mid ++ j :: post) a).subs e = some (pre ++ k :: (mid ++ post)))
    ∧ (logAfterEmit BaddX 20 (onE (onE emptyState 0 100) 0 101) 0 9 =
        some [(100, 9), (101, 9)]
      ∧ lookupAfterEmit BaddX 20 (onE (onE emptyState 0 100) 0 101) 0 9 0 =
          some (some [100, 101, 102])
      ∧ countsAfterEmit BaddX 20 (onE (onE emptyState 0 100) 0 101) 0 9 102 =
          some 0) := by
  refine ⟨?_, by decide, by decide, by decide⟩
  intro s e a f pre mid post k j hlk hpreI hpreP hkP hkB hmidI hmidP hjI hjP
    hpostI hpostP hnoalias
  have hwrap3 : (off (bump1 (bumpList s pre a) k a) e j).wrapInfo =
      s.wrapInfo := by
    rw [off_wrapInfo, bump1_wrapInfo, bumpList_wrapInfo]
  have hsubs3 : (off (bump1 (bumpList s pre a) k a) e j).subs =
      offSubs s.origMap s.subs e j := by
    rw [off_subs, bump1_origMap, bumpList_origMap, bump1_subs, bumpList_subs]
  have hoff : offSubs s.origMap s.subs e j =
      setEvt s.subs e ((pre ++ k :: mid) ++ post) := by
    rw [offSubs_some _ _ e j _ hlk]
    have hL : pre ++ k :: (mid ++ j :: post) =
        (pre ++ k :: mid) ++ j :: post := by
      simp
    rw [hL, removeFirst_append_of_match _ _ post j hnoalias
      (by simp [matchesH])]
    rw [if_neg (by simp)]
  have hI2 : InertAll B (mid ++ j :: post) := by
    intro x hx
    rw [List.mem_append, List.mem_cons] at hx
    rcases hx with hx | hx | hx
    · exact hmidI x hx
    · subst hx; exact hjI
    · exact hpostI x hx
  have hP2 : PlainAll (off (bump1 (bumpList s pre a) k a) e j)
      (mid ++ j :: post) := by
    intro x hx
    rw [hwrap3]
    rw [List.mem_append, List.mem_cons] at hx
    rcases hx with hx | hx | hx
    · exact hmidP x hx
    · subst hx; exact hjP
    · exact hpostP x hx
  have hinvk : step B (f + mid.length + post.length + 4) (bumpList s pre a)
      (.inv k a) = .ok (off (bump1 (bumpList s pre a) k a) e j) := by
    rw [show f + mid.length + post.length + 4 =
      (f + mid.length + post.length + 3) + 1 by omega]
    rw [step_inv_plain B (f + mid.length + post.length + 3) (bumpList s pre a)
      k a (by rw [bumpList_wrapInfo]; exact hkP)]
    rw [hkB ((bumpList s pre a).counts k)]
    rw [show f + mid.length + post.length + 3 =
      (f + mid.length + post.length + 2) + 1 by omega]
    rw [step_run_cons_eq]
    have hone : step B (f + mid.length + post.length + 2)
        (bump1 (bumpList s pre a) k a) (.one (.offC e j)) =
        .ok (off (bump1 (bumpList s pre a) k a) e j) := by
      rw [show f + mid.length + post.length + 2 =
        (f + mid.length + post.length + 1) + 1 by omega]
      exact step_one_offC B (f + mid.length + post.length + 1)
        (bump1 (bumpList s pre a) k a) e j
    rw [hone]
    show step B (f + mid.length + post.length + 2)
        (off (bump1 (bumpList s pre a) k a) e j) (.run []) =
      .ok (off (bump1 (bumpList s pre a) k a) e j)
    exact step_run_nil B _ _
  have hrest : step B (f + mid.length + post.length + 4)
      (off (bump1 (bumpList s pre a) k a) e j) (.seqL (mid ++ j :: post) a) =
      .ok (bumpList (off (bump1 (bumpList s pre a) k a) e j)
        (mid ++ j :: post) a) := by
    rw [show f + mid.length + post.length + 4 =
      (f + 2) + (mid ++ j :: post).length + 1 by
        simp only [List.length_append, List.length_cons]
        omega]
    exact seqL_inert B a (mid ++ j :: post) (f + 2)
      (off (bump1 (bumpList s pre a) k a) e j) hI2 hP2
  refine ⟨?_, ?_, ?_⟩
  · rw [emit_some B (f + pre.length + mid.length + post.length + 5) s e a
      (pre ++ k :: (mid ++ j :: post)) hlk]
    rw [show f + pre.length + mid.length + post.length + 5 =
      (f + mid.length + post.length + 4) + 1 + pre.length by omega]
    rw [seqL_prefix_inert B a pre (f + mid.length + post.length + 4) s
      (k :: (mid ++ j :: post)) hpreI hpreP]
    rw [step_seqL_cons_eq, hinvk]
    show (match step B (f + mid.length + post.length + 4)
        (off (bump1 (bumpList s pre a) k a) e j)
        (.seqL (mid ++ j :: post) a) with
      | Res.ok s' => EmitRes.ok true s'
      | Res.thrown v s' => EmitRes.thrown v s'
      | Res.fuelOut => EmitRes.fuelOut) =
      EmitRes.ok true
        (bumpList (off (bump1 (bumpList s pre a) k a) e j)
          (mid ++ j :: post) a)
    rw [hrest]
  · rw [bumpList_log, off_log, bump1_log, bumpList_log]
    simp
  · rw [bumpList_subs, hsubs3, hoff, lookupEvt_setEvt, if_pos rfl]
    simp

/-- Witness for C1 at a concrete input: listeners `[40, 41, 42, 43, 44]`
for event 0, where 41 (`Lk`) unsubscribes 43 (`Lj`) during dispatch. -/
theorem c1_snapshot_isolation_witness :
    emit Bkj (0 + [40].length + [42].length + [44].length + 5)
        (onE (onE (onE (onE (onE emptyState 0 40) 0 41) 0 42) 0 43) 0 44)
        0 9 =
      .ok true
        (bumpList
          (off
            (bump1
              (bumpList
                (onE (onE (onE (onE (onE emptyState 0 40) 0 41) 0 42) 0 43)
                  0 44)
                [40] 9)
              41 9)
            0 43)
          ([42] ++ 43 :: [44]) 9)
    ∧ (bumpList
        (off
          (bump1
            (bumpList
              (onE (onE (onE (onE (onE emptyState 0 40) 0 41) 0 42) 0 43)
                0 44)
              [40] 9)
            41 9)
          0 43)
        ([42] ++ 43 :: [44]) 9).log =
        (onE (onE (onE (onE (onE emptyState 0 40) 0 41) 0 42) 0 43)
          0 44).log ++
          ([40] ++ 41 :: ([42] ++ 43 :: [44])).map (fun x => (x, 9))
    ∧ lookupEvt
        (bumpList
          (off
            (bump1
              (bumpList
                (onE (onE (onE (onE (onE emptyState 0 40) 0 41) 0 42) 0 43)
                  0 44)
                [40] 9)
              41 9)
            0 43)
          ([42] ++ 43 :: [44]) 9).subs 0 =
        some ([40] ++ 41 :: ([42] ++ [44])) :=
  (c1_snapshot_isolation Bkj).1
    (onE (onE (onE (onE (onE emptyState 0 40) 0 41) 0 42) 0 43) 0 44)
    0 9 0 [40] [42] [44] 41 43 (by decide)
    (by
      intro x hx n
      simp only [List.mem_singleton] at hx
      subst hx
      rfl)
    (fun x _ => rfl) rfl (fun n => rfl)
    (by
      intro x hx n
      simp only [List.mem_singleton] at hx
      subst hx
      rfl)
    (fun x _ => rfl) (fun n => rfl) rfl
    (by
      intro x hx n
      simp only [List.mem_singleton] at hx
      subst hx
      rfl)
    (fun x _ => rfl) (by decide)

end EmitterSpec
